import Mathlib

/-!
Verification development for `Eudora2Mbox.py`, the Eudora-mailbox to Unix-mbox
converter.  The program is shallowly embedded over `List Char` strings:
pure string manipulation is translated function by function from the Python
source, the regular expressions of the module header are modelled as explicit
scanning functions with the same matching semantics, and the streaming main
loop of `convert` becomes a step function over an explicit state record,
with Python exceptions modelled by `Except`.

The repository ships `Eudora2Mbox.py` without its helper modules `Header.py`
and `EudoraLog.py`; the few facts needed from them (the message-boundary
pattern, the header record operations, `strip_linesep`, the log counters) are
modelled from the specification and marked as such in their doc comments.
-/

namespace Eudora

/-- Strings are modelled as lists of characters so that every operation is
structural and kernel-computable. -/
abbrev Str := List Char

/-- Convenience conversion from Lean string literals. -/
def chars (s : String) : Str := s.toList

/-- Python `str.isspace` characters (the ones relevant to this program). -/
def isWSChar (c : Char) : Bool :=
  c = ' ' || c = '\t' || c = '\n' || c = '\r' || c = '\x0b' || c = '\x0c'

/-- Python `str.strip()` (both-ends whitespace strip). -/
def pyStrip (s : Str) : Str :=
  ((s.dropWhile isWSChar).reverse.dropWhile isWSChar).reverse

/-- Modelled from the spec: `strip_linesep` of the missing `Header.py` removes
trailing line terminators (`\r`, `\n`) from a line. -/
def strip_linesep (s : Str) : Str :=
  (s.reverse.dropWhile (fun c => c = '\n' || c = '\r')).reverse

/-- Python `str.split(sep)` for a one-character separator, auxiliary. -/
def splitOnCharAux (sep : Char) : Str → Str → List Str
  | [], acc => [acc.reverse]
  | c :: rest, acc =>
    if c = sep then acc.reverse :: splitOnCharAux sep rest []
    else splitOnCharAux sep rest (c :: acc)

/-- Python `str.split(sep)` for a one-character separator (never empty). -/
def splitOnChar (sep : Char) (s : Str) : List Str := splitOnCharAux sep s []

/-- Python `sep.join(parts)` for a one-character separator. -/
def joinWithChar (sep : Char) : List Str → Str
  | [] => []
  | [p] => p
  | p :: ps => p ++ sep :: joinWithChar sep ps

/-- Python `c in s` for a single character. -/
def containsChar (c : Char) (s : Str) : Bool := s.any (fun x => x = c)

/-- Python `s.replace(a, b)` for one-character `a`, `b`. -/
def replaceChar (a b : Char) (s : Str) : Str :=
  s.map (fun c => if c = a then b else c)

/-- Python `s.replace(a, '')` for a one-character `a`. -/
def removeChar (a : Char) (s : Str) : Str := s.filter (fun c => c ≠ a)

/-- Python `s.replace(pat, rep)` (all non-overlapping occurrences, scanning
left to right), fuelled to keep the recursion structural. -/
def replaceSubF (pat rep : Str) : Nat → Str → Str
  | _, [] => []
  | 0, s => s
  | fuel + 1, c :: rest =>
    if pat.isPrefixOf (c :: rest) ∧ pat ≠ [] then
      rep ++ replaceSubF pat rep fuel (List.drop (pat.length - 1) rest)
    else c :: replaceSubF pat rep fuel rest

/-- Python `s.replace(pat, rep)`. -/
def replaceSub (pat rep s : Str) : Str := replaceSubF pat rep s.length s

/-- Substring containment (`pat in s`). -/
def containsSub (pat : Str) : Str → Bool
  | [] => pat.isEmpty
  | c :: rest => pat.isPrefixOf (c :: rest) || containsSub pat rest

/-- ASCII lower-casing of one character, as Python's `re.IGNORECASE` uses. -/
def lowerChar (c : Char) : Char :=
  if 'A' ≤ c ∧ c ≤ 'Z' then Char.ofNat (c.toNat + 32) else c

/-- Case-insensitive prefix test: `pat` is given already lower-cased. -/
def ciHasPfx (pat s : Str) : Bool := pat.isPrefixOf (s.map lowerChar)

/-- The `os.path.isabs` test (POSIX). -/
def isAbs (p : Str) : Bool :=
  match p with
  | '/' :: _ => true
  | _ => false

/-- The `os.path.join` of two POSIX path components. -/
def pjoin2 (a b : Str) : Str :=
  if isAbs b then b
  else if a.isEmpty then b
  else if a.getLast? = some '/' then a ++ b
  else a ++ '/' :: b

/-- The `os.path.join` of three POSIX path components. -/
def pjoin3 (a b c : Str) : Str := pjoin2 (pjoin2 a b) c

/-! Models of the compiled regular expressions of `Eudora2Mbox.py`
(lines 123-136).  Input lines are modelled with their trailing line
terminator already removed; every consumer in the source either anchors at
`$`, strips, or is insensitive to it, so this is behaviour-preserving. -/

/-- Lower-cased marker for `re_attachment` / `re_quoted_attachment`. -/
def attachMarker : Str := chars "attachment converted: "

/-- Match of `re_attachment = ^Attachment converted: (.*)$` (IGNORECASE) at
the start of the line; returns group 1. -/
def attachMatch (line : Str) : Option Str :=
  if ciHasPfx attachMarker line then some (line.drop attachMarker.length)
  else none

/-- Match of `re_quoted_attachment = ^Attachment converted: "([^"]*)"\s*$`
(IGNORECASE); returns group 1 when the whole line matches. -/
def quotedAttachMatch (line : Str) : Option Str :=
  if ciHasPfx attachMarker line then
    match line.drop attachMarker.length with
    | '"' :: rest =>
      let contents := rest.takeWhile (fun c => c ≠ '"')
      match rest.drop contents.length with
      | '"' :: tail => if tail.all isWSChar then some contents else none
      | _ => none
    | _ => none
  else none

/-- Match test of `re_dos_path_beginning = .*:\\.*`: the description contains
a colon immediately followed by a backslash. -/
def dosPathTest (s : Str) : Bool := containsSub [':', '\\'] s

/-- Group 1 of `re_mac_info = (.*?)\s(\(.*?\)).*$` matched against the raw
line: the shortest prefix that is followed by a whitespace character, an
opening parenthesis, and eventually a closing parenthesis.  Returns `none`
when the pattern does not match.  (Group 2 is bound to an unused variable in
the source and is not modelled.) -/
def macInfoAux : Str → Str → Option Str
  | acc, a :: b :: rest =>
    if isWSChar a ∧ b = '(' ∧ containsChar ')' rest then some acc.reverse
    else macInfoAux (a :: acc) (b :: rest)
  | _, _ => none

/-- Group 1 of `re_mac_info` (see `macInfoAux`). -/
def macInfoMatch (line : Str) : Option Str := macInfoAux [] line

/-- The literal list for the `multipart/` content-type marker. -/
def mpfx : Str := chars "multipart/"

/-- Search of `re_multi_contenttype = multipart/([^;]+);.*` (IGNORECASE):
finds the leftmost occurrence of `multipart/` (case-insensitively) that is
followed by at least one non-semicolon character and then a semicolon;
returns group 1 in its original case. -/
def multiSearch : Str → Option Str
  | [] => none
  | c :: rest =>
    if mpfx.isPrefixOf ((c :: rest).map lowerChar) then
      let after := (c :: rest).drop mpfx.length
      let seg := after.takeWhile (fun x => x != ';')
      if seg.length ≠ 0 ∧ seg.length < after.length then some seg
      else multiSearch rest
    else multiSearch rest

/-- The `\S+` run used by `re_filename_cleaner`. -/
def nonspaceRun (s : Str) : Str := s.takeWhile (fun c => !(isWSChar c))

/-- Group 1 of `re_filename_cleaner = ^(.*\.\S+).*$`: everything up to the
end of the maximal non-whitespace run following the last dot that is
directly followed by a non-whitespace character; `none` when no such dot
exists (the pattern does not match). -/
def bestCut : Str → Option Str
  | [] => none
  | c :: rest =>
    match bestCut rest with
    | some g => some (c :: g)
    | none =>
      match c, rest with
      | '.', r :: rs => if isWSChar r then none else some ('.' :: nonspaceRun (r :: rs))
      | _, _ => none

/-- The `re_filename_cleaner.sub(r'\1', s)` operation: replace the whole
string by group 1 when the pattern matches, keep it unchanged otherwise. -/
def cleanerSub (s : Str) : Str :=
  match bestCut s with
  | some g => g
  | none => s

/-- Removal of all `<tag>` and `</tag>` occurrences in one left-to-right
pass, as `re.sub` with the alternation `</?tag>` performs (used for
`re_xflowed` and `re_xhtml`). -/
def scrubTagF (topen tclose : Str) : Nat → Str → Str
  | _, [] => []
  | 0, s => s
  | fuel + 1, c :: rest =>
    if topen.isPrefixOf (c :: rest) then
      scrubTagF topen tclose fuel ((c :: rest).drop topen.length)
    else if tclose.isPrefixOf (c :: rest) then
      scrubTagF topen tclose fuel ((c :: rest).drop tclose.length)
    else c :: scrubTagF topen tclose fuel rest

/-- Removal of `<tag>` and `</tag>` occurrences (see `scrubTagF`). -/
def scrubTag (tag : Str) (s : Str) : Str :=
  scrubTagF ('<' :: tag ++ ['>']) ('<' :: '/' :: tag ++ ['>']) s.length s

/-- Test of `re_xhtml.search(line)` where `re_xhtml = </?x-html>`. -/
def xhtmlTest (line : Str) : Bool :=
  containsSub (chars "<x-html>") line || containsSub (chars "</x-html>") line

/-- One step of `re_pete_stuff = <!x-stuff-for-pete[^>]+>` removal: the
literal marker, at least one non-`>` character, then `>`. -/
def peteMark : Str := chars "<!x-stuff-for-pete"

/-- Removal of all `re_pete_stuff` matches, fuelled scan. -/
def scrubPeteF : Nat → Str → Str
  | _, [] => []
  | 0, s => s
  | fuel + 1, c :: rest =>
    if peteMark.isPrefixOf (c :: rest) then
      let after := (c :: rest).drop peteMark.length
      let inner := after.takeWhile (fun x => x ≠ '>')
      if inner.length ≠ 0 ∧ inner.length < after.length then
        scrubPeteF fuel (after.drop (inner.length + 1))
      else c :: scrubPeteF fuel rest
    else c :: scrubPeteF fuel rest

/-- Removal of all `re_pete_stuff` matches. -/
def scrubPete (s : Str) : Str := scrubPeteF s.length s

/-- The body-line scrubbing of `convert` (source lines 416-419, with the
module constant `scrub_xflowed = True`). -/
def scrubBodyLine (line : Str) : Str :=
  scrubPete (scrubTag (chars "x-html") (scrubTag (chars "x-flowed") line))

/-- Test of `re_initial_whitespace.match(line)` where the pattern is
`^[ \t]+(.*?)$`. -/
def initialWSTest (line : Str) : Bool :=
  match line with
  | c :: _ => c = ' ' || c = '\t'
  | [] => false

/-! The header record.  `Header.py` is not part of src/, so the record and
its operations are modelled from the specification (spec sections 3 and
4.1). -/

/-- Modelled from the spec: a Header Record is an ordered,
insertion-preserving sequence of (name, value) pairs; the stored name keeps
its trailing delimiter (a colon for real headers, a space for the envelope
pseudo-header `"From "`). -/
abbrev HeaderRec := List (Str × Str)

/-- The envelope pseudo-header name `"From "`. -/
def fromKey : Str := chars "From "

/-- The `Content-Type:` lookup key. -/
def ctKey : Str := chars "Content-Type:"

/-- The `X-MS-Attachment:` lookup key. -/
def msKey : Str := chars "X-MS-Attachment:"

/-- Modelled from the spec: `Header.add` appends a (name, value) pair. -/
def hAdd (h : HeaderRec) (name value : Str) : HeaderRec := h ++ [(name, value)]

/-- Modelled from the spec: `Header.getValue` is an exact, case-sensitive
lookup by the full stored name, returning the first match (duplicates are
suppressed by taking the earliest). -/
def getValue (h : HeaderRec) (name : Str) : Option Str :=
  (h.find? (fun p => p.1 == name)).map (fun p => p.2)

/-- Modelled from the spec: `Header.appendToLast` strips surrounding
whitespace and line terminators from a continuation line and concatenates it
onto the most recently added value; this model documents the single-space
joining rule the spec leaves open.  A record without a pair is left
unchanged. -/
def appendToLast (h : HeaderRec) (raw : Str) : HeaderRec :=
  match h.getLast? with
  | none => h
  | some last => h.dropLast ++ [(last.1, last.2 ++ ' ' :: pyStrip raw)]

/-- Splits a raw header line at its first colon, auxiliary. -/
def splitColonAux : Str → Str → Option (Str × Str)
  | _, [] => none
  | acc, c :: rest =>
    if c = ':' then some (acc.reverse, rest) else splitColonAux (c :: acc) rest

/-- Splits a raw header line at its first colon. -/
def splitColon (raw : Str) : Option (Str × Str) := splitColonAux [] raw

/-- Modelled from the spec: `Header.add_line` splits `Name: value` on the
first colon and appends (name including the trailing colon, trimmed value);
a line without a colon is treated as a continuation and must not raise. -/
def add_line (h : HeaderRec) (raw : Str) : HeaderRec :=
  match splitColon raw with
  | some (nm, rest) => h ++ [(nm ++ [':'], pyStrip rest)]
  | none => appendToLast h raw

/-- The fixed sentinel sender address of `convert`'s documentation. -/
def sentinelSender : Str := chars "unknown@unknown.unknown"

/-- Modelled from the spec: the sender synthesised by `Header.clean` is the
first present value among `From:`, `Sender:`, `Return-Path:`, and the
sentinel address `unknown@unknown.unknown` when none of the three is
present (spec section 4.1, clean step (b), and the `convert` docstring at
source lines 153-155). -/
def synthSender (h : HeaderRec) : Str :=
  match getValue h (chars "From:") with
  | some v => v
  | none =>
    match getValue h (chars "Sender:") with
    | some v => v
    | none =>
      match getValue h (chars "Return-Path:") with
      | some v => v
      | none => sentinelSender

/-- Modelled from the spec: the part of `Header.clean` the claims depend on,
namely replacing the Eudora placeholder `???@???` in the stored envelope
value by the synthesised sender.  (The date synthesis and the read/replied
status injection of clean are not modelled; no claim depends on them.) -/
def cleanHeaders (h : HeaderRec) : HeaderRec :=
  h.map (fun p =>
    if p.1 = fromKey then (p.1, replaceSub (chars "???@???") (synthSender h) p.2)
    else p)

/-! The destination MIME message object and `set_headers`
(source lines 473-481). -/

/-- An attachment part as attached by `handle_attachment`: the filename used
for the `Content-Disposition` header, the resolved file path, and the coarse
MIME category of the wrapper class chosen. -/
structure AttPart where
  name : Str
  file : Str
  kind : Str

deriving DecidableEq

/-- The destination message object: a shallow model of the
`MIMEMultipart` / `MIMENonMultipart` instances `convert` builds. -/
structure MsgObj where
  isMulti : Bool
  mainType : Str
  subType : Str
  hdrs : List (Str × Str)
  unixfrom : Option Str
  payload : Option Str
  textParts : List (Str × Bool)
  attParts : List AttPart

deriving DecidableEq

/-- A fresh `MIMEMultipart()` (default subtype `mixed`). -/
def freshMultipart : MsgObj :=
  ⟨true, chars "multipart", chars "mixed", [], none, none, [], []⟩

/-- A fresh `MIMENonMultipart(main, sub)`. -/
def freshNonMultipart (main sub : Str) : MsgObj :=
  ⟨false, main, sub, [], none, none, [], []⟩

/-- The header-copying half of `set_headers` (source lines 474-477): every
pair except the envelope pseudo-header and the ones whose stored name starts
case-insensitively with `content-type` (the `re_contenttype.match` test) is
emitted with its trailing delimiter character dropped, in insertion
order. -/
def set_headersPairs (h : HeaderRec) : List (Str × Str) :=
  (h.filter (fun p => !(p.1 == fromKey) && !(ciHasPfx (chars "content-type") p.1))).map
    (fun p => (p.1.dropLast, p.2))

/-- The whole of `set_headers` (source lines 473-481) on a message object:
copy the filtered pairs, then set the envelope line `From <stored envelope
value>`.  When the record has no `"From "` pair the Python code raises a
`TypeError` (`'From ' + None`); this is modelled by `none`. -/
def set_headers (m : MsgObj) (h : HeaderRec) : Option MsgObj :=
  match getValue h fromKey with
  | none => none
  | some v =>
    some { m with
            hdrs := m.hdrs ++ set_headersPairs h,
            unixfrom := some (fromKey ++ v) }

/-! The attachment resolver `handle_attachment` (source lines 483-662).
The filesystem is a predicate `fs : Str → Bool` standing for both
`os.path.exists` and `os.path.isfile` (candidate paths are file paths), the
`HOME` environment variable is the parameter `home`, and
`mimetypes.guess_type` is the oracle `mime` returning an already split
`(maintype, subtype)` pair, as the spec treats MIME-type lookup as an
external table. -/

/-- The process-wide attachment bookkeeping of the module (source lines
141-146): the three counters and the per-original-path tallies plus the
missing-attachment descriptions (flattened; the source keys them by mailbox
name, which is constant within one run). -/
structure AttachState where
  listed : Nat
  found : Nat
  missing : Nat
  paths_found : List (Str × Nat)
  paths_missing : List (Str × Nat)
  missing_attachments : List Str

deriving DecidableEq

/-- Increment-or-insert on an insertion-ordered association list, as the
`paths_found` / `paths_missing` dictionary updates perform. -/
def assocBump (key : Str) : List (Str × Nat) → List (Str × Nat)
  | [] => [(key, 1)]
  | (k, n) :: rest =>
    if k = key then (k, n + 1) :: rest else (k, n) :: assocBump key rest

/-- The stray vendor path token `OutboundG4:`. -/
def pfxOut : Str := chars "OutboundG4:"

/-- The attachment description after marker stripping, line-separator
stripping and `OutboundG4:` removal (source lines 513-527). -/
def extractDesc (line : Str) : Str :=
  let desc0 :=
    match quotedAttachMatch line with
    | some g => g
    | none =>
      match attachMatch line with
      | some g => g
      | none => line
  let desc1 := strip_linesep desc0
  if containsSub pfxOut desc1 then replaceSub pfxOut [] desc1 else desc1

/-- Description extraction and path-dialect detection of `handle_attachment`
(source lines 513-548): returns `(description, candidate name, original
path)`, or the `IndexError` that `name[-1]` raises on a DOS-style
description whose last backslash segment is empty (source line 536). -/
def extractNameOrig (line : Str) : Except Str (Str × Str × Str) :=
  let desc := extractDesc line
  if dosPathTest desc then
    let descList := splitOnChar '\\' desc
    let name := pyStrip (descList.getLastD [])
    match name.getLast? with
    | none => .error (chars "IndexError")
    | some c =>
      .ok (desc, (if c = '"' then name.dropLast else name),
           joinWithChar '/' descList.dropLast)
  else
    match macInfoMatch line with
    | some g =>
      let dlist := splitOnChar ':' g
      .ok (desc, pyStrip (dlist.getLastD []), joinWithChar '/' dlist.dropLast)
    | none => .ok (desc, desc, desc)

/-- The initial per-directory candidate path (source lines 558-560): join
the target hint, the directory and the name, resolved against the home
directory when the target hint is not absolute. -/
def buildPath (home target adir name : Str) : Str :=
  let f := pjoin3 target adir name
  if isAbs target then f else pjoin2 home f

/-- One iteration of the directory search loop of `handle_attachment`
(source lines 556-594), carried state `(candidate path so far, current
name)`: when the carried candidate does not exist the initial path is built
and the name transforms fire in order, each guarded by non-existence of the
current candidate — (a) stripping the `OutboundG4:` prefix (rebuilding
against the whole attachments-directory string, as line 566 does), (b)
removing `/`, (c) replacing `_` by space, (d) replacing space by `_`; the
retry paths of (a)-(d) are not resolved against the home directory. -/
def searchStep (fs : Str → Bool) (home target adStr : Str)
    (fo : Option Str × Str) (adir : Str) : Option Str × Str :=
  let proceed :=
    match fo.1 with
    | none => true
    | some f => !(fs f)
  if proceed then
    let n0 := fo.2
    let f1 := buildPath home target adir n0
    let st1 :=
      if !(fs f1) && pfxOut.isPrefixOf n0 then
        let n := n0.drop 11
        (pjoin3 target adStr n, n)
      else (f1, n0)
    let st2 :=
      if !(fs st1.1) && containsChar '/' st1.2 then
        let n := removeChar '/' st1.2
        (pjoin3 target adir n, n)
      else st1
    let st3 :=
      if !(fs st2.1) && containsChar '_' st2.2 then
        let n := replaceChar '_' ' ' st2.2
        (pjoin3 target adir n, n)
      else st2
    let st4 :=
      if !(fs st3.1) && containsChar ' ' st3.2 then
        let n := replaceChar ' ' '_' st3.2
        (pjoin3 target adir n, n)
      else st3
    (some st4.1, st4.2)
  else fo

/-- The whole directory search loop: fold `searchStep` over the
colon-separated directory list (source lines 553-556). -/
def searchFold (fs : Str → Bool) (home target ad name : Str) : Option Str × Str :=
  (splitOnChar ':' ad).foldl (searchStep fs home target ad) (none, name)

/-- The post-loop trim fallbacks of `handle_attachment` (source lines
601-612): when the loop's candidate does not exist, try the
`re_filename_cleaner`-trimmed path, then the trimmed path with underscores
replaced by spaces; otherwise keep the candidate. -/
def trimFallback (fs : Str → Bool) (f : Str) : Str :=
  if !(fs f) then
    if fs (cleanerSub f) then cleanerSub f
    else
      let c2 := cleanerSub (replaceChar '_' ' ' f)
      if fs c2 then c2 else f
  else f

/-- The MIME-category dispatch of the found branch (source lines 621-641):
the coarse wrapper class per main type, `none` for an unrecognized main
type (which the source reports and drops without touching the counters). -/
def mimeKind (mt : Str) : Option Str :=
  if mt = chars "application" || mt = chars "video" then some (chars "application")
  else if mt = chars "image" then some (chars "image")
  else if mt = chars "text" then some (chars "text")
  else if mt = chars "audio" then some (chars "audio")
  else none

/-- The full `handle_attachment` (source lines 483-662): bumps the listed
counter, extracts the candidate name, returns early on an empty name,
searches the directories with the fallback chain, applies the post-loop trim
fallbacks, and either attaches a part and bumps the found tallies or bumps
the missing tallies.  Exceptions of the Python code are `Except.error`. -/
def handle_attachment (fs : Str → Bool) (home : Str)
    (mime : Str → Option (Str × Str)) (line target ad : Str)
    (st0 : AttachState) : Except Str (AttachState × Option AttPart) :=
  let st := { st0 with listed := st0.listed + 1 }
  match extractNameOrig line with
  | .error e => .error e
  | .ok (desc, name, orig) =>
    if name.isEmpty then .ok (st, none)
    else
      let fo := searchFold fs home target ad name
      match fo.1 with
      | none => .error (chars "TypeError")
      | some f0 =>
        let nameF := fo.2
        let cleaned := cleanerSub f0
        let mi := mime cleaned
        let file := trimFallback fs f0
        let mpair := mi.getD (chars "application", chars "octet-stream")
        if fs file then
          match mimeKind mpair.1 with
          | none => .ok (st, none)
          | some kind =>
            .ok ({ st with
                    found := st.found + 1,
                    paths_found := assocBump orig st.paths_found },
                 some ⟨nameF, file, kind⟩)
        else
          .ok ({ st with
                  missing := st.missing + 1,
                  paths_missing := assocBump orig st.paths_missing,
                  missing_attachments := st.missing_attachments ++ [desc] },
               none)

/-! The content-type framing decision and the `convert` state machine
(source lines 148-471). -/

/-- The framing chosen at the blank line ending a message's headers: which
MIME constructor `convert` invokes (source lines 352-387). -/
inductive Framing where
  | nonMultipart (main sub : Str)
  | multipart (sub : Str)
  | multipartDefault

deriving DecidableEq

/-- The `re_single_contenttype.sub(r'\1', ct)` result: the leading run of
non-semicolon characters. -/
def ctMime (cv : Str) : Str := cv.takeWhile (fun c => c != ';')

/-- The main type: `mimetype.partition('/')` first component
(source line 369). -/
def ctMain (cv : Str) : Str := (ctMime cv).takeWhile (fun c => c != '/')

/-- The subtype: `mimetype.partition('/')` last component, empty when the
mimetype has no slash (source line 369). -/
def ctSub (cv : Str) : Str :=
  let mt := ctMime cv
  let mn := ctMain cv
  if mn.length = mt.length then [] else mt.drop (mn.length + 1)

/-- The framing decision of `convert` at the end of a header block (source
lines 352-387): a falsy `Content-Type` gives plain text, or default
multipart when the vendor `X-MS-Attachment` header is present (truthy); a
`Content-Type` on which `re_multi_contenttype` finds `multipart/<subtype>;`
gives multipart with that subtype; otherwise a `Content-Type` matching
`re_single_contenttype` (any value not starting with a semicolon) gives a
non-multipart of its main/sub type; a value starting with a semicolon
matches neither pattern and leaves the message variable unassigned
(`none`). -/
def decideFraming (ct msa : Option Str) : Option Framing :=
  let cv := ct.getD []
  if cv.isEmpty then
    if (msa.getD []).isEmpty then
      some (.nonMultipart (chars "text") (chars "plain"))
    else some .multipartDefault
  else
    match multiSearch cv with
    | some sub => some (.multipart sub)
    | none =>
      match cv with
      | [] => none
      | c :: _ => if c = ';' then none else some (.nonMultipart (ctMain cv) (ctSub cv))

/-- The message object a framing decision constructs. -/
def mkMsg : Framing → MsgObj
  | .nonMultipart main sub => freshNonMultipart main sub
  | .multipart sub => { freshMultipart with subType := sub }
  | .multipartDefault => freshMultipart

/-- A `message.attach(MIMEText(text, ...))` call. -/
def attachText (m : MsgObj) (txt : Str) (html : Bool) : MsgObj :=
  { m with textParts := m.textParts ++ [(txt, html)] }

/-- The run configuration: the message-boundary matcher (`re_message_start`
of the missing `Header.py` is kept abstract here), the `-a` and `-t`
options, and the external collaborators (filesystem, home directory, MIME
table). -/
structure Cfg where
  bMatch : Str → Bool
  attachments_dir : Option Str
  target : Str
  fs : Str → Bool
  home : Str
  mime : Str → Option (Str × Str)

/-- The mutable state of `convert`'s main loop, including the `EudoraLog`
counters it drives and the messages added to the destination mailbox. -/
structure CState where
  msg_no : Nat
  line_no : Nat
  in_headers : Bool
  headers : HeaderRec
  msg_lines : List Str
  attachments : List (Str × Str)
  is_html : Bool
  message : Option MsgObj
  ast : AttachState
  emitted : List MsgObj

deriving DecidableEq

/-- The reset `convert` performs on the module-level attachment bookkeeping
at the start of a run (source lines 176-178): only the three counters are
zeroed; `paths_found`, `paths_missing` and `missing_attachments` are left
untouched. -/
def convertInit (g : AttachState) : AttachState :=
  { g with listed := 0, found := 0, missing := 0 }

/-- The initial loop state of `convert` (source lines 195-227), taking the
incoming module-level bookkeeping `g`.  The Python variable `message` is
bound to the `email.message` module until the first assignment; that module
binding is `none` here. -/
def initState (g : AttachState) : CState :=
  { msg_no := 0, line_no := 0, in_headers := false, headers := [],
    msg_lines := [], attachments := [], is_html := false, message := none,
    ast := convertInit g, emitted := [] }

/-- The per-attachment loop at seal time (source lines 291-293): run
`handle_attachment` on each queued line, attaching returned parts in
order.  An exception escapes: the call site has no handler. -/
def foldAttach (cfg : Cfg) : List (Str × Str) → MsgObj → AttachState →
    Except Str (MsgObj × AttachState)
  | [], m, a => .ok (m, a)
  | (aline, atarget) :: rest, m, a =>
    match handle_attachment cfg.fs cfg.home cfg.mime aline atarget
        (cfg.attachments_dir.getD []) a with
    | .error e => .error e
    | .ok (a', part) =>
      let m' :=
        match part with
        | some p => { m with attParts := m.attParts ++ [p] }
        | none => m
      foldAttach cfg rest m' a'

/-- Sealing the accumulated message (source lines 251-314, for a non-empty
`msg_lines`): with attachments queued, force the message to a fresh
multipart (re-running `set_headers`) unless it already is one, attach the
body text as HTML or plain per the flag, then process the queued
attachments; without attachments, set the body as the payload — on the
module binding (`none`) that attribute access raises. -/
def sealCore (cfg : Cfg) (s : CState) : Except Str (MsgObj × AttachState) :=
  let msg_text := s.msg_lines.flatten
  if s.attachments.isEmpty then
    match s.message with
    | none => .error (chars "AttributeError")
    | some m => .ok ({ m with payload := some msg_text }, s.ast)
  else
    let base :=
      match s.message with
      | some m => if m.isMulti then some m else none
      | none => none
    match base with
    | some m0 => foldAttach cfg s.attachments (attachText m0 msg_text s.is_html) s.ast
    | none =>
      match set_headers freshMultipart s.headers with
      | none => .error (chars "TypeError")
      | some m0 => foldAttach cfg s.attachments (attachText m0 msg_text s.is_html) s.ast

/-- Boundary handling before starting a new message: seal and emit the
accumulating message if any body lines were gathered (source lines
250-314); `newmailbox.add` is the append to `emitted`. -/
def sealEmit (cfg : Cfg) (s : CState) : Except Str CState :=
  if s.msg_lines.isEmpty then .ok s
  else
    match sealCore cfg s with
    | .error e => .error e
    | .ok (m, a) =>
      .ok { s with message := some m, ast := a, emitted := s.emitted ++ [m] }

/-- Starting a new message at a boundary line (source lines 332-337): fresh
header record seeded with the envelope remainder, header mode on, HTML flag
cleared, message counter bumped.  (`msg_lines` and `attachments` are not
cleared here; the source clears them only at the end of a header block.) -/
def startNew (s : CState) (line : Str) : CState :=
  { s with headers := [(fromKey, pyStrip (line.drop 5))], in_headers := true,
           is_html := false, msg_no := s.msg_no + 1 }

/-- The end of a header block (source lines 347-398): decide the framing,
clean the headers, copy them onto the message object with `set_headers`,
leave header mode and clear the body/attachment accumulators.  When the
framing decision assigned no message object and none exists yet,
`set_headers` receives the module binding and raises. -/
def headerEnd (s : CState) : Except Str CState :=
  let ct := getValue s.headers ctKey
  let msa := getValue s.headers msKey
  let mNew : Option MsgObj :=
    match decideFraming ct msa with
    | some fr => some (mkMsg fr)
    | none => s.message
  let h2 := cleanHeaders s.headers
  match mNew with
  | none => .error (chars "TypeError")
  | some m =>
    match set_headers m h2 with
    | none => .error (chars "TypeError")
    | some m2 =>
      .ok { s with message := some m2, headers := h2, in_headers := false,
                   msg_lines := [], attachments := [] }

/-- A body line (source lines 399-421): set the HTML flag on an `x-html`
marker, queue an attachment line (dropping a preceding blank-line artifact)
when an attachments directory is configured, otherwise scrub the markup
noise and append the line to the body accumulator. -/
def bodyStep (cfg : Cfg) (s : CState) (line : Str) : CState :=
  let s1 := if xhtmlTest line then { s with is_html := true } else s
  if cfg.attachments_dir.isSome && (attachMatch line).isSome then
    let ml :=
      if s1.msg_lines ≠ [] ∧ (s1.msg_lines.getLast? = some (chars "\n") ∨
          s1.msg_lines.getLast? = some (chars "\r\n")) then
        s1.msg_lines.dropLast
      else s1.msg_lines
    { s1 with msg_lines := ml, attachments := s1.attachments ++ [(line, cfg.target)] }
  else
    { s1 with msg_lines := s1.msg_lines ++ [strip_linesep (scrubBodyLine line) ++ ['\n']] }

/-- The boundary condition of the main loop (source line 250): the line
does not begin with the literal `Find ` token and matches
`re_message_start`. -/
def bcond (cfg : Cfg) (line : Str) : Bool :=
  !((chars "Find ").isPrefixOf line) && cfg.bMatch line

/-- One iteration of the main loop of `convert` (source lines 237-421). -/
def step (cfg : Cfg) (s : CState) (line : Str) : Except Str CState :=
  let s0 := { s with line_no := s.line_no + 1 }
  if bcond cfg line then
    match sealEmit cfg s0 with
    | .error e => .error e
    | .ok s1 => .ok (startNew s1 line)
  else if s0.in_headers then
    if initialWSTest line then
      .ok { s0 with headers := appendToLast s0.headers line }
    else if !(pyStrip line).isEmpty then
      .ok { s0 with headers := add_line s0.headers line }
    else headerEnd s0
  else .ok (bodyStep cfg s0 line)

/-- The main loop over the remaining input lines. -/
def runLines (cfg : Cfg) : CState → List Str → Except Str CState
  | s, [] => .ok s
  | s, l :: ls =>
    match step cfg s l with
    | .error e => .error e
    | .ok s' => runLines cfg s' ls

/-- The whole conversion run of `convert` on an archive given as its list of
lines (line terminators removed), starting from the incoming module-level
bookkeeping `g`.  After the loop the source only reports and closes; no
further message is emitted (source lines 423-471). -/
def convert (cfg : Cfg) (g : AttachState) (lines : List Str) : Except Str CState :=
  runLines cfg (initState g) lines

/-- Modelled from the spec: `re_message_start` of the missing `Header.py`;
the `convert` docstring (source lines 150 and 429-431) gives the pattern
`^From ???@???`. -/
def re_message_start (line : Str) : Bool :=
  (chars "From ???@???").isPrefixOf line

/-! Shared concrete run fixtures. -/

/-- Empty incoming bookkeeping (the module-level initial values,
source lines 141-146). -/
def g0 : AttachState := ⟨0, 0, 0, [], [], []⟩

/-- A minimal run configuration: the spec-modelled boundary matcher, no
attachments directory, empty target, an empty filesystem. -/
def cfg0 : Cfg :=
  ⟨re_message_start, none, [], fun _ => false, [], fun _ => none⟩

deriving instance DecidableEq for Except

/-- Whether an `Except` run completed normally. -/
def exOk : Except Str CState → Bool
  | .ok _ => true
  | .error _ => false

/-! Claim-side and amended header-copy rules for claim C7. -/

/-- The skip rule exactly as the claim words it: only the envelope
pseudo-header and names beginning with the literal (case-sensitive)
`Content-Type` are skipped. -/
def claimedHeaderPairs (h : HeaderRec) : List (Str × Str) :=
  (h.filter (fun p => !(p.1 == fromKey) && !((chars "Content-Type").isPrefixOf p.1))).map
    (fun p => (p.1.dropLast, p.2))

/-- A record with a lower-cased `content-type:` header. -/
def c7Rec : HeaderRec :=
  [(fromKey, chars "a@b.c"), (chars "content-type:", chars "text/plain"),
   (chars "X-A:", chars "1")]

/-- The skip rule amended: names beginning case-insensitively with
`Content-Type` are skipped, written via explicit lower-casing of both
sides. -/
def amendedHeaderPairs (h : HeaderRec) : List (Str × Str) :=
  (h.filter (fun p => !(p.1 == fromKey) &&
      !(((chars "Content-Type").map lowerChar).isPrefixOf (p.1.map lowerChar)))).map
    (fun p => (p.1.dropLast, p.2))

/-! Fixtures for claim C9 (archive-scoping of the attachment side tables). -/

/-- A configuration whose filesystem holds one attachment file. -/
def cfg9 : Cfg :=
  ⟨re_message_start, some (chars "ad"), chars "/t",
   fun p => p == chars "/t/ad/a.txt", [],
   fun _ => some (chars "text", chars "plain")⟩

/-- A first archive whose single attachment is found. -/
def lines9 : List Str :=
  [chars "From ???@??? run one", chars "", chars "hello",
   chars "Attachment converted: \"a.txt\"", chars "From ???@??? next"]

/-! Fixture for claim C1 (sealing at end-of-stream). -/

/-- A one-message archive: boundary line, one header, blank separator, one
body line, then end of stream. -/
def lines1 : List Str :=
  [chars "From ???@??? Thu Jan 03 11:42:42 2002", chars "Subject: hi",
   chars "", chars "body text"]

/-- A two-message archive on which the run completes. -/
def lines3 : List Str :=
  [chars "From ???@??? one", chars "", chars "x",
   chars "From ???@??? two", chars "", chars "y"]

/-! Fixtures for claim C2 (exception propagation). -/

/-- A configuration with an attachments directory, as needed to reach the
attachment handling. -/
def cfg2 : Cfg :=
  ⟨re_message_start, some (chars "ad"), [], fun _ => false,
   chars "/home/u", fun _ => none⟩

/-- An archive whose first message carries a DOS-style attachment
description ending in a backslash. -/
def lines2 : List Str :=
  [chars "From ???@??? x", chars "", chars "hello",
   chars "Attachment converted: C:\\", chars "From ???@??? y"]

/-- The framing rule exactly as the claim words it: an absent
`Content-Type` gives plain text unless the vendor header is present; a
`Content-Type` matching `multipart/<subtype>` (no semicolon required) gives
multipart with that subtype; any other `Content-Type` gives a single part
of its main/sub type. -/
def claimedFraming (ct msa : Option Str) : Option Framing :=
  match ct with
  | none =>
    if msa.isSome then some .multipartDefault
    else some (.nonMultipart (chars "text") (chars "plain"))
  | some s =>
    if mpfx.isPrefixOf s then
      some (.multipart ((s.drop mpfx.length).takeWhile (fun c => c != ';')))
    else some (.nonMultipart (ctMain s) (ctSub s))

/-! The stage calculus for claim C5 (the attachment search order).  The code-side loop
(`searchStep`) is a guarded sequential mutation; the spec-side reading is
"first existing candidate of an ordered candidate sequence".  The bridge is
a generic stage calculus: a stage is a (name precondition, candidate
builder) pair. -/

/-- A search stage: a name precondition and a candidate builder producing
the (path, new name) pair. -/
abbrev Stage := (Str → Bool) × (Str → Str × Str)

/-- The code's stage semantics: fire the stage only when the carried
candidate does not exist and the name precondition holds. -/
def codeStages (fs : Str → Bool) : List Stage → (Str × Str) → (Str × Str)
  | [], st => st
  | (cond, mk) :: rest, st =>
    codeStages fs rest (if !(fs st.1) && cond st.2 then mk st.2 else st)

/-- The candidate sequence of a stage list: each stage contributes its
candidate when its name precondition holds, names feeding forward. -/
def chainOf : List Stage → (Str × Str) → List (Str × Str)
  | [], _ => []
  | (cond, mk) :: rest, st =>
    if cond st.2 then mk st.2 :: chainOf rest (mk st.2) else chainOf rest st

/-- First hit or last: walk the candidate sequence from a start state and
return the first state whose path exists, or the final state when none
does. -/
def fhol (fs : Str → Bool) : (Str × Str) → List (Str × Str) → (Str × Str)
  | st, [] => st
  | st, x :: xs => if fs st.1 then st else fhol fs x xs

/-- The four name-transform stages of the directory loop (source lines
562-594): (a) strip the `OutboundG4:` prefix — its retry path joins the
whole attachments-directory string, as line 566 does — then (b) remove
`/`, (c) replace `_` by space, (d) replace space by `_`, each retry path
joined without the home-directory resolution. -/
def attDescs (target adStr adir : Str) : List Stage :=
  [(fun n => pfxOut.isPrefixOf n,
    fun n => (pjoin3 target adStr (n.drop 11), n.drop 11)),
   (fun n => containsChar '/' n,
    fun n => (pjoin3 target adir (removeChar '/' n), removeChar '/' n)),
   (fun n => containsChar '_' n,
    fun n => (pjoin3 target adir (replaceChar '_' ' ' n), replaceChar '_' ' ' n)),
   (fun n => containsChar ' ' n,
    fun n => (pjoin3 target adir (replaceChar ' ' '_' n), replaceChar ' ' '_' n))]

/-- The per-directory step in spec style: when the carried candidate does
not exist, take the first existing candidate of the directory's candidate
sequence (initial path, then the (a)-(d) transforms), or its last candidate
when none exists. -/
def fixStep (fs : Str → Bool) (home target adStr : Str)
    (fo : Option Str × Str) (adir : Str) : Option Str × Str :=
  let proceed :=
    match fo.1 with
    | none => true
    | some f => !(fs f)
  if proceed then
    let st0 := (buildPath home target adir fo.2, fo.2)
    let r := fhol fs st0 (chainOf (attDescs target adStr adir) st0)
    (some r.1, r.2)
  else fo

/-- First existing path of a list. -/
def firstHit (fs : Str → Bool) : List Str → Option Str
  | [] => none
  | x :: xs => if fs x then some x else firstHit fs xs

/-- The post-loop trim fallbacks in spec style: the first existing path
among the loop's candidate, its trimmed form, and its
underscores-to-spaces trimmed form; the untrimmed candidate when none
exists. -/
def trimSpec (fs : Str → Bool) (f : Str) : Str :=
  (firstHit fs [f, cleanerSub f, cleanerSub (replaceChar '_' ' ' f)]).getD f

/-- The resolution core of `handle_attachment` as the code performs it:
the directory fold (source lines 556-594) followed by the post-loop trim
fallbacks (source lines 601-612) applied once to the fold's candidate. -/
def resolveCode (fs : Str → Bool) (home target ad name : Str) :
    Option Str × Str :=
  let fo := searchFold fs home target ad name
  (fo.1.map (trimFallback fs), fo.2)

/-- The resolution as the amended claim words it: per directory, first
existing candidate of the (a)-(d) chain; after all directories, the trim
transforms (e) and (f) applied exactly once to the final candidate. -/
def resolveFix (fs : Str → Bool) (home target ad name : Str) :
    Option Str × Str :=
  let fo := (splitOnChar ':' ad).foldl (fixStep fs home target ad) (none, name)
  (fo.1.map (trimSpec fs), fo.2)

/-- The six stages of the claim as stated: (a)-(d) as above but all built
against the home-resolved directory join, then (e) the trim of the
disambiguating suffix and (f) the swap-and-trim, both inside the
per-directory chain. -/
def claimDescs (home target adir : Str) : List Stage :=
  [(fun n => pfxOut.isPrefixOf n,
    fun n => (buildPath home target adir (n.drop 11), n.drop 11)),
   (fun n => containsChar '/' n,
    fun n => (buildPath home target adir (removeChar '/' n), removeChar '/' n)),
   (fun n => containsChar '_' n,
    fun n => (buildPath home target adir (replaceChar '_' ' ' n),
              replaceChar '_' ' ' n)),
   (fun n => containsChar ' ' n,
    fun n => (buildPath home target adir (replaceChar ' ' '_' n),
              replaceChar ' ' '_' n)),
   (fun n => cleanerSub n != n,
    fun n => (buildPath home target adir (cleanerSub n), cleanerSub n)),
   (fun n => cleanerSub (replaceChar '_' ' ' n) != n,
    fun n => (buildPath home target adir (cleanerSub (replaceChar '_' ' ' n)),
              cleanerSub (replaceChar '_' ' ' n)))]

/-- One directory step of the search exactly as the claim words it. -/
def claimStep (fs : Str → Bool) (home target : Str)
    (fo : Option Str × Str) (adir : Str) : Option Str × Str :=
  let proceed :=
    match fo.1 with
    | none => true
    | some f => !(fs f)
  if proceed then
    let st0 := (buildPath home target adir fo.2, fo.2)
    let r := fhol fs st0 (chainOf (claimDescs home target adir) st0)
    (some r.1, r.2)
  else fo

/-- The whole resolution as the claim words it: transforms (a)-(f) per
directory, first existing combination wins. -/
def claimedResolve (fs : Str → Bool) (home target ad name : Str) :
    Option Str × Str :=
  (splitOnChar ':' ad).foldl (claimStep fs home target) (none, name)

/-- The filesystem of the C5 counterexample: exactly one file exists. -/
def fs5 : Str → Bool := fun p => p == chars "/t/d1/a.txt"

/-- The attachment line of the C5 counterexample. -/
def line5 : Str := chars "Attachment converted: \"a.txt 1\""

/-! The claims, C1 to C10, with their witnesses and counterexamples. -/

/-! Claim C8: the sender fallback chain. -/

/-- C8: the synthesized envelope sender is the first present value in the
chain `From:`, then `Sender:`, then `Return-Path:`; with only `Sender:`
present it equals the `Sender:` value, and with none of the three present it
equals the fixed sentinel address `unknown@unknown.unknown`. -/
theorem c8_sender_chain (h : HeaderRec) :
    (∀ v, getValue h (chars "From:") = some v → synthSender h = v) ∧
    (getValue h (chars "From:") = none →
      ∀ v, getValue h (chars "Sender:") = some v → synthSender h = v) ∧
    (getValue h (chars "From:") = none → getValue h (chars "Sender:") = none →
      ∀ v, getValue h (chars "Return-Path:") = some v → synthSender h = v) ∧
    (getValue h (chars "From:") = none → getValue h (chars "Sender:") = none →
      getValue h (chars "Return-Path:") = none → synthSender h = sentinelSender) := by
  refine ⟨?_, ?_, ?_, ?_⟩
  · intro v hv; unfold synthSender; rw [hv]
  · intro h1 v hv; unfold synthSender; rw [h1, hv]
  · intro h1 h2 v hv; unfold synthSender; rw [h1, h2, hv]
  · intro h1 h2 h3; unfold synthSender; rw [h1, h2, h3]

/-- Witness for C8 at concrete header records. -/
theorem c8_witness :
    getValue [(chars "Sender:", chars "s@x.org")] (chars "From:") = none ∧
    synthSender [(chars "Sender:", chars "s@x.org")] = chars "s@x.org" ∧
    synthSender [] = sentinelSender :=
  ⟨by decide,
   (c8_sender_chain [(chars "Sender:", chars "s@x.org")]).2.1 (by decide) _ (by decide),
   (c8_sender_chain []).2.2.2 (by decide) (by decide) (by decide)⟩

/-- Counterexample for C7: a stored header named `content-type:` does not
begin with the literal `Content-Type`, so the claim predicts it is copied,
but `re_contenttype` matches case-insensitively and the code skips it. -/
theorem c7_counterexample :
    set_headersPairs c7Rec = [(chars "X-A", chars "1")] ∧
    claimedHeaderPairs c7Rec =
      [(chars "content-type", chars "text/plain"), (chars "X-A", chars "1")] ∧
    set_headersPairs c7Rec ≠ claimedHeaderPairs c7Rec := by
  refine ⟨by decide, by decide, by decide⟩

/-- C7 amended: `set_headers` copies the pairs in insertion order with the
trailing delimiter dropped, skipping exactly the envelope pseudo-header and
every header whose name begins case-insensitively with `Content-Type`, and
sets the envelope line from the stored envelope value. -/
theorem c7_amended (h : HeaderRec) (m : MsgObj) (v : Str)
    (hv : getValue h fromKey = some v) :
    set_headers m h =
      some { m with hdrs := m.hdrs ++ amendedHeaderPairs h,
                    unixfrom := some (chars "From " ++ v) } := by
  have hlit : (chars "Content-Type").map lowerChar = chars "content-type" := by decide
  have hpairs : set_headersPairs h = amendedHeaderPairs h := by
    unfold set_headersPairs amendedHeaderPairs ciHasPfx
    rw [hlit]
  unfold set_headers
  rw [hv, hpairs]
  rfl

/-- Witness for C7 amended at a concrete record. -/
theorem c7_witness :
    getValue c7Rec fromKey = some (chars "a@b.c") ∧
    set_headers freshMultipart c7Rec =
      some { freshMultipart with
              hdrs := freshMultipart.hdrs ++ amendedHeaderPairs c7Rec,
              unixfrom := some (chars "From " ++ chars "a@b.c") } :=
  ⟨by decide, c7_amended c7Rec freshMultipart _ (by decide)⟩

/-- Counterexample for C9: after a run that found one attachment, the state
a second run of `convert` starts from (after the in-function reset of the
three counters) still carries the per-path found tally of the first
archive; the tallies are not archive-scoped. -/
theorem c9_counterexample :
    (convert cfg9 g0 lines9).map (fun s => (convertInit s.ast).paths_found) =
      .ok [(chars "a.txt", 1)] ∧
    ([(chars "a.txt", 1)] : List (Str × Nat)) ≠ [] := by
  refine ⟨by decide, by decide⟩

/-- C9 amended: at the start of every run of `convert` the three counters
of attachments listed/found/missing are zero, while the per-original-path
found/missing tallies and the missing-attachment table keep whatever the
process accumulated before the run. -/
theorem c9_amended (g : AttachState) :
    (initState g).ast.listed = 0 ∧ (initState g).ast.found = 0 ∧
    (initState g).ast.missing = 0 ∧
    (initState g).ast.paths_found = g.paths_found ∧
    (initState g).ast.paths_missing = g.paths_missing ∧
    (initState g).ast.missing_attachments = g.missing_attachments :=
  ⟨rfl, rfl, rfl, rfl, rfl, rfl⟩

/-! Claim C10: the empty-name early return of `handle_attachment`. -/

/-- C10: when the extracted candidate file name is empty,
`handle_attachment` returns early: the listed counter is bumped by one,
everything else (including the per-path tallies) is unchanged, no part is
attached, and the listed counter then strictly exceeds found plus missing
whenever it was at least their sum before. -/
theorem c10_empty_name (fs : Str → Bool) (home : Str)
    (mime : Str → Option (Str × Str)) (line target ad : Str)
    (st : AttachState) (desc orig : Str)
    (hx : extractNameOrig line = .ok (desc, [], orig)) :
    handle_attachment fs home mime line target ad st =
      .ok ({ st with listed := st.listed + 1 }, none) ∧
    (st.found + st.missing ≤ st.listed →
      st.found + st.missing < st.listed + 1) := by
  constructor
  · unfold handle_attachment
    rw [hx]
    rfl
  · omega

/-- Witness for C10: a bare `Attachment converted: ` line with an empty
description. -/
theorem c10_witness :
    extractNameOrig (chars "Attachment converted: ") = .ok ([], [], []) ∧
    handle_attachment (fun _ => false) [] (fun _ => none)
        (chars "Attachment converted: ") [] (chars "ad") ⟨5, 2, 3, [], [], []⟩ =
      .ok (⟨6, 2, 3, [], [], []⟩, none) ∧
    (2 + 3 : Nat) < 6 :=
  ⟨by decide,
   ((c10_empty_name (fun _ => false) [] (fun _ => none)
      (chars "Attachment converted: ") [] (chars "ad") ⟨5, 2, 3, [], [], []⟩
      [] [] (by decide)).1).trans (by decide),
   (c10_empty_name (fun _ => false) [] (fun _ => none)
      (chars "Attachment converted: ") [] (chars "ad") ⟨5, 2, 3, [], [], []⟩
      [] [] (by decide)).2 (by decide)⟩

/-- C1, evaluated: on a one-message archive the run completes, counts the
message, but emits nothing — `convert` only seals on seeing a next boundary
line, and the code after the loop (source lines 423-471) never seals, so
the final accumulating message is dropped.  Appending one more boundary
line makes the same message come out, confirming the divergence is the
missing end-of-stream seal. -/
theorem c1_eof_drops_last :
    (convert cfg0 g0 lines1).map (fun s => (s.msg_no, s.emitted.length)) =
      .ok (1, 0) ∧
    (convert cfg0 g0 (lines1 ++ [chars "From ???@??? next"])).map
        (fun s => (s.msg_no, s.emitted.length)) = .ok (2, 1) := by
  refine ⟨by decide, by decide⟩

/-! Claim C3: the message count equals the boundary-line count minus the
excluded ones. -/

/-- Sealing and emitting never touches the message counter. -/
theorem sealEmit_msgno (cfg : Cfg) (s t : CState) (h : sealEmit cfg s = .ok t) :
    t.msg_no = s.msg_no := by
  unfold sealEmit at h
  split at h
  · cases h; rfl
  · split at h
    · cases h
    · cases h; rfl

/-- Ending a header block never touches the message counter. -/
theorem headerEnd_msgno (s t : CState) (h : headerEnd s = .ok t) :
    t.msg_no = s.msg_no := by
  simp only [headerEnd] at h
  split at h
  · cases h
  · split at h
    · cases h
    · cases h; rfl

/-- A body line never touches the message counter. -/
theorem bodyStep_msgno (cfg : Cfg) (s : CState) (l : Str) :
    (bodyStep cfg s l).msg_no = s.msg_no := by
  unfold bodyStep
  cases hx : xhtmlTest l <;>
    simp only [hx, if_true, Bool.false_eq_true, if_false] <;>
    split <;> (try split) <;> rfl

/-- One loop iteration bumps the message counter exactly on a boundary
line. -/
theorem step_msgno (cfg : Cfg) (s : CState) (l : Str) (s' : CState)
    (h : step cfg s l = .ok s') :
    s'.msg_no = s.msg_no + (if bcond cfg l then 1 else 0) := by
  unfold step at h
  cases hb : bcond cfg l with
  | true =>
    simp only [hb, if_true] at h
    cases hse : sealEmit cfg { s with line_no := s.line_no + 1 } with
    | error e => rw [hse] at h; cases h
    | ok s1 =>
      rw [hse] at h
      cases h
      have h1 := sealEmit_msgno cfg _ _ hse
      simp only [startNew, h1, if_true]
  | false =>
    simp only [hb, Bool.false_eq_true, if_false] at h
    split at h
    · split at h
      · cases h; simp
      · split at h
        · cases h; simp
        · have := headerEnd_msgno _ _ h; simp [this]
    · cases h
      rw [bodyStep_msgno]
      simp

/-- Running the loop adds one to the counter per boundary-condition line. -/
theorem runLines_msgno (cfg : Cfg) (ls : List Str) : ∀ (s t : CState),
    runLines cfg s ls = .ok t →
    t.msg_no = s.msg_no + (ls.filter (bcond cfg)).length := by
  induction ls with
  | nil => intro s t h; cases h; simp
  | cons l ls ih =>
    intro s t h
    unfold runLines at h
    cases hst : step cfg s l with
    | error e => rw [hst] at h; cases h
    | ok s1 =>
      rw [hst] at h
      have h1 := ih s1 t h
      have h2 := step_msgno cfg s l s1 hst
      cases hb : bcond cfg l <;>
        simp only [hb, if_true, Bool.false_eq_true, if_false, List.filter,
          List.length_cons] at h1 h2 ⊢ <;> omega

/-- Splitting the boundary-match count over the `Find ` exclusion. -/
theorem filterSplitLen (cfg : Cfg) (ls : List Str) :
    (ls.filter (fun l => cfg.bMatch l)).length =
      (ls.filter (bcond cfg)).length +
      (ls.filter (fun l => cfg.bMatch l &&
        (chars "Find ").isPrefixOf l)).length := by
  induction ls with
  | nil => rfl
  | cons a ls ih =>
    cases hp : cfg.bMatch a <;> cases hq : (chars "Find ").isPrefixOf a <;>
      simp [List.filter, bcond, hp, hq, ih] <;> omega

/-- C3: on a completed run, the number of messages counted by `convert`
(`EudoraLog.msg_no`) equals the number of input lines matching the boundary
pattern minus those excluded by the `Find ` prefix check of source line
250. -/
theorem c3_boundary_count (cfg : Cfg) (g : AttachState) (lines : List Str)
    (s : CState) (h : convert cfg g lines = .ok s) :
    s.msg_no =
      (lines.filter (fun l => cfg.bMatch l)).length -
      (lines.filter (fun l => cfg.bMatch l &&
        (chars "Find ").isPrefixOf l)).length := by
  have hrun := runLines_msgno cfg lines (initState g) s h
  have hsplit := filterSplitLen cfg lines
  have h0 : (initState g).msg_no = 0 := rfl
  omega

/-- Witness for C3 on a concrete archive: two boundary lines, no excluded
ones, two counted messages. -/
theorem c3_witness :
    (convert cfg0 g0 lines3).map (fun s => s.msg_no) = .ok 2 := by
  cases hc : convert cfg0 g0 lines3 with
  | error e =>
    have hok : exOk (convert cfg0 g0 lines3) = true := by decide
    rw [hc] at hok
    exact absurd hok (by simp [exOk])
  | ok s =>
    have hm := c3_boundary_count cfg0 g0 lines3 s hc
    have hv : (lines3.filter (fun l => cfg0.bMatch l)).length -
        (lines3.filter (fun l => cfg0.bMatch l &&
          (chars "Find ").isPrefixOf l)).length = 2 := by decide
    simp only [Except.map]
    rw [hm, hv]

/-! Claim C6: missing attachments degrade to the missing classification. -/

/-- Python `split` never returns an empty list (auxiliary form). -/
theorem splitOnCharAux_ne_nil (sep : Char) :
    ∀ (s acc : Str), splitOnCharAux sep s acc ≠ [] := by
  intro s
  induction s with
  | nil => intro acc; simp [splitOnCharAux]
  | cons c rest ih =>
    intro acc
    unfold splitOnCharAux
    split
    · simp
    · exact ih _

/-- Python `split` never returns an empty list. -/
theorem splitOnChar_ne_nil (sep : Char) (s : Str) : splitOnChar sep s ≠ [] :=
  splitOnCharAux_ne_nil sep s []

/-- A search step keeps the candidate present. -/
theorem searchStep_fst_isSome (fs : Str → Bool) (home target adStr : Str)
    (fo : Option Str × Str) (adir : Str) (h : fo.1.isSome = true) :
    ((searchStep fs home target adStr fo adir).1).isSome = true := by
  obtain ⟨f?, n⟩ := fo
  cases f? with
  | none => unfold searchStep; simp
  | some f =>
    unfold searchStep
    cases hf : fs f <;> simp [hf]

/-- The first search step establishes a candidate. -/
theorem searchStep_none_isSome (fs : Str → Bool) (home target adStr : Str)
    (n : Str) (adir : Str) :
    ((searchStep fs home target adStr (none, n) adir).1).isSome = true := by
  unfold searchStep
  simp

/-- The candidate stays present along the directory fold. -/
theorem foldl_searchStep_isSome (fs : Str → Bool) (home target adStr : Str)
    (dirs : List Str) : ∀ (fo : Option Str × Str), fo.1.isSome = true →
    ((dirs.foldl (searchStep fs home target adStr) fo).1).isSome = true := by
  induction dirs with
  | nil => intro fo h; exact h
  | cons d ds ih =>
    intro fo h
    exact ih _ (searchStep_fst_isSome fs home target adStr fo d h)

/-- The directory search always produces a candidate path: the directory
list of `split(':')` is never empty. -/
theorem searchFold_isSome (fs : Str → Bool) (home target ad name : Str) :
    ((searchFold fs home target ad name).1).isSome = true := by
  unfold searchFold
  cases hd : splitOnChar ':' ad with
  | nil => exact absurd hd (splitOnChar_ne_nil ':' ad)
  | cons d ds =>
    simp only [List.foldl]
    exact foldl_searchStep_isSome fs home target ad ds _
      (searchStep_none_isSome fs home target ad name d)

/-- C6 amended: for a description whose extracted candidate name is
non-empty, when no candidate file exists at all, `handle_attachment` does
not raise: it returns with no part attached, the missing counter up by
exactly one, the per-path missing tally bumped, and found untouched.  (The
claim as stated also covers descriptions with an empty extracted name,
where the counter does not move — see the counterexample.) -/
theorem c6_amended (home : Str) (mime : Str → Option (Str × Str))
    (line target ad : Str) (st : AttachState) (desc name orig : Str)
    (hx : extractNameOrig line = .ok (desc, name, orig)) (hne : name ≠ [])
    (fs : Str → Bool) (hfs : ∀ p, fs p = false) :
    handle_attachment fs home mime line target ad st =
      .ok ({ st with listed := st.listed + 1, missing := st.missing + 1,
                     paths_missing := assocBump orig st.paths_missing,
                     missing_attachments := st.missing_attachments ++ [desc] },
           none) := by
  have hsome := searchFold_isSome fs home target ad name
  rw [Option.isSome_iff_exists] at hsome
  obtain ⟨f0, hf0⟩ := hsome
  have hemp : name.isEmpty = false := by
    cases name
    · exact absurd rfl hne
    · rfl
  unfold handle_attachment
  rw [hx]
  simp only [hemp, Bool.false_eq_true, if_false, hf0, hfs]

/-- Counterexample for C6: a quoted empty description names no existing
file under any fallback, yet the missing counter does not move — the call
returns after only bumping the listed counter, so it does not increment
"exactly once". -/
theorem c6_counterexample :
    handle_attachment (fun _ => false) [] (fun _ => none)
        (chars "Attachment converted: \"\"") [] (chars "d")
        ⟨0, 0, 0, [], [], []⟩ =
      .ok (⟨1, 0, 0, [], [], []⟩, none) ∧
    (⟨1, 0, 0, [], [], []⟩ : AttachState).missing ≠ 1 := by
  refine ⟨by decide, by decide⟩

/-- Witness for C6 amended at a concrete missing attachment. -/
theorem c6_witness :
    extractNameOrig (chars "Attachment converted: \"nope.txt\"") =
      .ok (chars "nope.txt", chars "nope.txt", chars "nope.txt") ∧
    handle_attachment (fun _ => false) [] (fun _ => none)
        (chars "Attachment converted: \"nope.txt\"") [] (chars "d")
        ⟨0, 0, 0, [], [], []⟩ =
      .ok (⟨1, 0, 1, [], [(chars "nope.txt", 1)], [chars "nope.txt"]⟩, none) :=
  ⟨by decide,
   (c6_amended [] (fun _ => none) (chars "Attachment converted: \"nope.txt\"")
      [] (chars "d") ⟨0, 0, 0, [], [], []⟩ (chars "nope.txt")
      (chars "nope.txt") (chars "nope.txt") (by decide) (by decide)
      (fun _ => false) (fun _ => rfl)).trans (by decide)⟩

/-- Counterexample for C2: the `IndexError` raised inside
`handle_attachment` on the empty last path segment (source line 536)
propagates through the unguarded call at source line 293 and terminates the
whole run of `convert`. -/
theorem c2_counterexample :
    convert cfg2 g0 lines2 = .error (chars "IndexError") := by decide

/-- Name extraction can only raise the empty-segment `IndexError`. -/
theorem extractNameOrig_err (line e : Str)
    (h : extractNameOrig line = .error e) : e = chars "IndexError" := by
  unfold extractNameOrig at h
  cases hd : dosPathTest (extractDesc line) with
  | true =>
    simp only [hd, if_true] at h
    cases hg : (pyStrip ((splitOnChar '\\' (extractDesc line)).getLastD [])).getLast? with
    | none =>
      rw [hg] at h
      injection h with h2
      exact h2.symm
    | some c => rw [hg] at h; cases h
  | false =>
    simp only [hd, Bool.false_eq_true, if_false] at h
    cases hm : macInfoMatch line with
    | some g => rw [hm] at h; cases h
    | none => rw [hm] at h; cases h

/-- The function `handle_attachment` can only raise the extraction
`IndexError` or the
(unreachable in practice) empty-directory-list `TypeError`. -/
theorem handle_attachment_err (fs : Str → Bool) (home : Str)
    (mime : Str → Option (Str × Str)) (line target ad : Str)
    (st : AttachState) (e : Str)
    (h : handle_attachment fs home mime line target ad st = .error e) :
    e = chars "IndexError" ∨ e = chars "TypeError" := by
  unfold handle_attachment at h
  cases hx : extractNameOrig line with
  | error e' =>
    rw [hx] at h
    injection h with h2
    exact Or.inl (h2.symm.trans (extractNameOrig_err line e' hx))
  | ok t =>
    obtain ⟨desc, name, orig⟩ := t
    rw [hx] at h
    cases hne : name.isEmpty with
    | true => simp only [hne, if_true] at h; cases h
    | false =>
      simp only [hne, Bool.false_eq_true, if_false] at h
      cases hf : (searchFold fs home target ad name).1 with
      | none =>
        rw [hf] at h
        injection h with h2
        exact Or.inr h2.symm
      | some f0 =>
        rw [hf] at h
        cases hff : fs (trimFallback fs f0) with
        | true =>
          simp only [hff, if_true] at h
          cases hk : mimeKind ((mime (cleanerSub f0)).getD
              (chars "application", chars "octet-stream")).1 with
          | none => rw [hk] at h; cases h
          | some k => rw [hk] at h; cases h
        | false => simp only [hff, Bool.false_eq_true, if_false] at h; cases h

/-- The per-attachment loop only raises what `handle_attachment` raises. -/
theorem foldAttach_err (cfg : Cfg) : ∀ (atts : List (Str × Str)) (m : MsgObj)
    (a : AttachState) (e : Str), foldAttach cfg atts m a = .error e →
    e = chars "IndexError" ∨ e = chars "TypeError" := by
  intro atts
  induction atts with
  | nil => intro m a e h; cases h
  | cons p rest ih =>
    intro m a e h
    obtain ⟨aline, atarget⟩ := p
    unfold foldAttach at h
    cases hha : handle_attachment cfg.fs cfg.home cfg.mime aline atarget
        (cfg.attachments_dir.getD []) a with
    | error e' =>
      rw [hha] at h
      cases h
      exact handle_attachment_err _ _ _ _ _ _ _ _ hha
    | ok r =>
      rw [hha] at h
      exact ih _ _ _ h

/-- Sealing can only raise the attachment errors, the module
`AttributeError` of `set_payload`, or the `TypeError` of `set_headers`. -/
theorem sealCore_err (cfg : Cfg) (s : CState) (e : Str)
    (h : sealCore cfg s = .error e) :
    e = chars "IndexError" ∨ e = chars "TypeError" ∨
      e = chars "AttributeError" := by
  unfold sealCore at h
  cases hae : s.attachments.isEmpty with
  | true =>
    simp only [hae, if_true] at h
    cases hm : s.message with
    | none =>
      rw [hm] at h
      injection h with h2
      exact Or.inr (Or.inr h2.symm)
    | some m => rw [hm] at h; cases h
  | false =>
    simp only [hae, Bool.false_eq_true, if_false] at h
    cases hm : s.message with
    | some m =>
      rw [hm] at h
      cases hmu : m.isMulti with
      | true =>
        simp only [hmu, if_true] at h
        rcases foldAttach_err cfg _ _ _ _ h with h1 | h1
        · exact Or.inl h1
        · exact Or.inr (Or.inl h1)
      | false =>
        simp only [hmu, Bool.false_eq_true, if_false] at h
        cases hsh : set_headers freshMultipart s.headers with
        | none =>
          rw [hsh] at h
          injection h with h2
          exact Or.inr (Or.inl h2.symm)
        | some m0 =>
          rw [hsh] at h
          rcases foldAttach_err cfg _ _ _ _ h with h1 | h1
          · exact Or.inl h1
          · exact Or.inr (Or.inl h1)
    | none =>
      rw [hm] at h
      cases hsh : set_headers freshMultipart s.headers with
      | none =>
        rw [hsh] at h
        injection h with h2
        exact Or.inr (Or.inl h2.symm)
      | some m0 =>
        rw [hsh] at h
        rcases foldAttach_err cfg _ _ _ _ h with h1 | h1
        · exact Or.inl h1
        · exact Or.inr (Or.inl h1)

/-- Seal-and-emit raises only what sealing raises. -/
theorem sealEmit_err (cfg : Cfg) (s : CState) (e : Str)
    (h : sealEmit cfg s = .error e) :
    e = chars "IndexError" ∨ e = chars "TypeError" ∨
      e = chars "AttributeError" := by
  unfold sealEmit at h
  cases hml : s.msg_lines.isEmpty with
  | true => simp only [hml, if_true] at h; cases h
  | false =>
    simp only [hml, Bool.false_eq_true, if_false] at h
    cases hsc : sealCore cfg s with
    | error e2 =>
      rw [hsc] at h
      injection h with h2
      subst h2
      exact sealCore_err cfg s e2 hsc
    | ok r =>
      obtain ⟨m, a⟩ := r
      rw [hsc] at h
      cases h

/-- A header-block end can only raise the `TypeError` of copying headers
onto the module binding or of a record without an envelope pair. -/
theorem headerEnd_err (s : CState) (e : Str) (h : headerEnd s = .error e) :
    e = chars "TypeError" := by
  simp only [headerEnd] at h
  split at h
  · cases h; rfl
  · split at h
    · cases h; rfl
    · cases h

/-- A loop step raises only the three modelled exceptions. -/
theorem step_err (cfg : Cfg) (s : CState) (l : Str) (e : Str)
    (h : step cfg s l = .error e) :
    e = chars "IndexError" ∨ e = chars "TypeError" ∨
      e = chars "AttributeError" := by
  unfold step at h
  cases hb : bcond cfg l with
  | true =>
    simp only [hb, if_true] at h
    cases hse : sealEmit cfg { s with line_no := s.line_no + 1 } with
    | error e' =>
      rw [hse] at h
      cases h
      exact sealEmit_err cfg _ e hse
    | ok s1 => rw [hse] at h; cases h
  | false =>
    simp only [hb, Bool.false_eq_true, if_false] at h
    split at h
    · split at h
      · cases h
      · split at h
        · cases h
        · exact Or.inr (Or.inl (headerEnd_err _ e h))
    · cases h

/-- The loop raises only the three modelled exceptions. -/
theorem runLines_err (cfg : Cfg) : ∀ (ls : List Str) (s : CState) (e : Str),
    runLines cfg s ls = .error e →
    e = chars "IndexError" ∨ e = chars "TypeError" ∨
      e = chars "AttributeError" := by
  intro ls
  induction ls with
  | nil => intro s e h; cases h
  | cons l rest ih =>
    intro s e h
    unfold runLines at h
    cases hst : step cfg s l with
    | error e' =>
      rw [hst] at h
      cases h
      exact step_err cfg s l e hst
    | ok s1 =>
      rw [hst] at h
      exact ih _ _ h

/-- C2 amended: exceptions raised while attaching the body text or adding
the message to the destination container are caught and reported (they do
not appear as abort causes at all), but a run of `convert` can still abort:
the only abort causes are the attachment-extraction `IndexError`, the
`TypeError` of framing a message with no message object or envelope pair,
and the `AttributeError` of sealing body text with no message object. -/
theorem c2_amended (cfg : Cfg) (g : AttachState) (lines : List Str) (e : Str)
    (h : convert cfg g lines = .error e) :
    e = chars "IndexError" ∨ e = chars "TypeError" ∨
      e = chars "AttributeError" :=
  runLines_err cfg lines (initState g) e h

/-- Witness for C2 amended at the aborting archive. -/
theorem c2_witness :
    chars "IndexError" = chars "IndexError" ∨
      chars "IndexError" = chars "TypeError" ∨
      chars "IndexError" = chars "AttributeError" :=
  c2_amended cfg2 g0 lines2 (chars "IndexError") (by decide)

/-! Claim C4: the framing decision at the end of a header block. -/

/-- A list is a prefix of itself extended. -/
theorem ipf_append (p t : Str) : p.isPrefixOf (p ++ t) = true := by
  induction p with
  | nil => simp [List.isPrefixOf]
  | cons a as ih => simp [List.isPrefixOf, ih]

/-- The function `takeWhile` stops exactly at the first failing element after a clean
run. -/
theorem tw_append (p : Char → Bool) (xs : Str) (y : Char) (ys : Str)
    (hx : ∀ c ∈ xs, p c = true) (hy : p y = false) :
    (xs ++ y :: ys).takeWhile p = xs := by
  induction xs with
  | nil => simp [List.takeWhile_cons, hy]
  | cons x xs ih =>
    have h1 : p x = true := hx x (List.mem_cons_self x xs)
    simp only [List.cons_append, List.takeWhile_cons, h1, if_true]
    exact congrArg (x :: ·) (ih (fun c hc => hx c (List.mem_cons_of_mem x hc)))

/-- Dropping the length of an appended prefix. -/
theorem drop_len_append (p t : Str) : (p ++ t).drop p.length = t := by
  induction p with
  | nil => rfl
  | cons a as ih => simp [ih]

/-- The `re_multi_contenttype` search succeeds on a value of the shape
`multipart/<subtype>;<parameters>` with a non-empty semicolon-free subtype,
returning that subtype. -/
theorem multiSearch_prefix (sub rest : Str) (hne : sub ≠ [])
    (hns : ∀ c ∈ sub, c ≠ ';') :
    multiSearch (mpfx ++ (sub ++ ';' :: rest)) = some sub := by
  have hm : mpfx = 'm' :: chars "ultipart/" := by decide
  have hlow : mpfx.map lowerChar = mpfx := by decide
  have hseg : (sub ++ ';' :: rest).takeWhile (fun x => x != ';') = sub := by
    refine tw_append _ sub ';' rest (fun c hc => ?_) (by simp)
    simp [hns c hc]
  have hcond : mpfx.isPrefixOf ((mpfx ++ (sub ++ ';' :: rest)).map lowerChar)
      = true := by
    rw [List.map_append, hlow]
    exact ipf_append _ _
  rw [hm, List.cons_append] at hcond ⊢
  simp only [multiSearch]
  rw [← List.cons_append, ← hm] at hcond ⊢
  rw [hcond]
  simp only [if_true, drop_len_append, hseg]
  have hlt : sub.length < (sub ++ ';' :: rest).length := by
    simp [List.length_append]
  have hnz : sub.length ≠ 0 := by
    cases sub
    · exact absurd rfl hne
    · simp
  rw [if_pos ⟨hnz, hlt⟩]

/-- Counterexample for C4: on `Content-Type: multipart/mixed` — no
parameters, hence no semicolon — `re_multi_contenttype` does not match
(its pattern requires a `;` after the subtype), so the code builds
`MIMENonMultipart('multipart', 'mixed')`, a single-part framing, while the
claim predicts multipart framing. -/
theorem c4_counterexample :
    decideFraming (some (chars "multipart/mixed")) none =
      some (.nonMultipart (chars "multipart") (chars "mixed")) ∧
    claimedFraming (some (chars "multipart/mixed")) none =
      some (.multipart (chars "mixed")) ∧
    decideFraming (some (chars "multipart/mixed")) none ≠
      claimedFraming (some (chars "multipart/mixed")) none := by
  refine ⟨by decide, by decide, by decide⟩

/-- C4 amended: the framing is a function of the accumulated headers only —
no `Content-Type` and no vendor header gives plain text; no `Content-Type`
with the vendor header present gives default multipart; a `Content-Type` of
the shape `multipart/<subtype>;<parameters>` (the semicolon is required by
the code's pattern) gives multipart with that subtype; any other present
`Content-Type` not beginning with a semicolon and without a
`multipart/...;` occurrence gives a single part of its main/sub type. -/
theorem c4_amended :
    (decideFraming none none =
      some (.nonMultipart (chars "text") (chars "plain"))) ∧
    (∀ v : Str, v ≠ [] →
      decideFraming none (some v) = some .multipartDefault) ∧
    (∀ (msa : Option Str) (sub rest : Str), sub ≠ [] →
      (∀ c ∈ sub, c ≠ ';') →
      decideFraming (some (mpfx ++ (sub ++ ';' :: rest))) msa =
        some (.multipart sub)) ∧
    (∀ (msa : Option Str) (s : Str), s ≠ [] → s.head? ≠ some ';' →
      multiSearch s = none →
      decideFraming (some s) msa =
        some (.nonMultipart (ctMain s) (ctSub s))) := by
  refine ⟨by decide, ?_, ?_, ?_⟩
  · intro v hv
    have hemp : v.isEmpty = false := by
      cases v
      · exact absurd rfl hv
      · rfl
    simp [decideFraming, hemp]
  · intro msa sub rest hne hns
    have hms := multiSearch_prefix sub rest hne hns
    have hemp : (mpfx ++ (sub ++ ';' :: rest)).isEmpty = false := by
      rw [show mpfx = 'm' :: chars "ultipart/" from by decide, List.cons_append]
      rfl
    simp [decideFraming, hemp, hms]
  · intro msa s hs hh hms
    cases s with
    | nil => exact absurd rfl hs
    | cons c cs =>
      have hc : ¬ (c = ';') := by
        intro hcc
        exact hh (by simp [hcc])
      simp [decideFraming, hms, hc]

/-- Witness for C4 amended at concrete content types. -/
theorem c4_witness :
    decideFraming none (some (chars "yes")) = some .multipartDefault ∧
    decideFraming (some (mpfx ++ (chars "mixed" ++ ';' :: chars " boundary=b")))
        none = some (.multipart (chars "mixed")) ∧
    decideFraming (some (chars "text/html")) none =
      some (.nonMultipart (ctMain (chars "text/html"))
        (ctSub (chars "text/html"))) :=
  ⟨c4_amended.2.1 _ (by decide),
   c4_amended.2.2.1 none _ _ (by decide) (by decide),
   c4_amended.2.2.2 none _ (by decide) (by decide) (by decide)⟩

/-- A found state freezes the code's stages. -/
theorem codeStages_frozen (fs : Str → Bool) : ∀ (descs : List Stage)
    (st : Str × Str), fs st.1 = true → codeStages fs descs st = st := by
  intro descs
  induction descs with
  | nil => intro st _; rfl
  | cons d rest ih =>
    intro st hf
    obtain ⟨cond, mk⟩ := d
    unfold codeStages
    rw [hf]
    simp only [Bool.not_true, Bool.false_and, Bool.false_eq_true, if_false]
    exact ih st hf

/-- The guarded sequential mutation equals first-hit-or-last over the
candidate sequence. -/
theorem codeStages_fhol (fs : Str → Bool) : ∀ (descs : List Stage)
    (st : Str × Str), codeStages fs descs st = fhol fs st (chainOf descs st) := by
  intro descs
  induction descs with
  | nil => intro st; rfl
  | cons d rest ih =>
    intro st
    obtain ⟨cond, mk⟩ := d
    unfold codeStages chainOf
    cases hc : cond st.2 with
    | false =>
      simp only [hc, Bool.and_false, Bool.false_eq_true, if_false]
      exact ih st
    | true =>
      simp only [hc, Bool.and_true, if_true]
      cases hf : fs st.1 with
      | true =>
        simp only [hf, Bool.not_true, Bool.false_eq_true, if_false]
        rw [codeStages_frozen fs rest st hf]
        unfold fhol
        rw [hf]
        simp
      | false =>
        simp only [hf, Bool.not_false, if_true]
        unfold fhol
        rw [hf]
        simp only [Bool.false_eq_true, if_false]
        exact ih (mk st.2)

/-- The code's step is the stage calculus applied to the four stages. -/
theorem searchStep_as_stages (fs : Str → Bool) (home target adStr : Str)
    (fo : Option Str × Str) (adir : Str) :
    searchStep fs home target adStr fo adir =
      (let proceed :=
        match fo.1 with
        | none => true
        | some f => !(fs f)
      if proceed then
        let st0 := (buildPath home target adir fo.2, fo.2)
        let r := codeStages fs (attDescs target adStr adir) st0
        (some r.1, r.2)
      else fo) := rfl

/-- One directory step of the code equals the spec-style step. -/
theorem searchStep_eq_fixStep (fs : Str → Bool) (home target adStr : Str)
    (fo : Option Str × Str) (adir : Str) :
    searchStep fs home target adStr fo adir =
      fixStep fs home target adStr fo adir := by
  rw [searchStep_as_stages]
  unfold fixStep
  simp only [codeStages_fhol]

/-- The whole directory fold of the code equals the spec-style fold. -/
theorem searchFold_eq_fix (fs : Str → Bool) (home target ad name : Str) :
    searchFold fs home target ad name =
      (splitOnChar ':' ad).foldl (fixStep fs home target ad) (none, name) := by
  unfold searchFold
  have hstep : searchStep fs home target ad = fixStep fs home target ad := by
    funext fo adir
    exact searchStep_eq_fixStep fs home target ad fo adir
  rw [hstep]

/-- The code's trim fallbacks equal the spec-style first hit. -/
theorem trimFallback_eq_trimSpec (fs : Str → Bool) (f : Str) :
    trimFallback fs f = trimSpec fs f := by
  unfold trimFallback trimSpec
  cases hf : fs f <;> cases h1 : fs (cleanerSub f) <;>
    cases h2 : fs (cleanerSub (replaceChar '_' ' ' f)) <;>
    simp [firstHit, hf, h1, h2]

/-- C5 amended: `handle_attachment` searches the directories in configured
order with the name transforms (a)-(d) applied per directory — first
existing directory-plus-transform candidate wins, with the mutated name
carried across directories — and the trim transforms (e), (f) are applied
only once, after the directory loop, to the final directory's candidate. -/
theorem c5_amended (fs : Str → Bool) (home target ad name : Str) :
    resolveCode fs home target ad name = resolveFix fs home target ad name := by
  unfold resolveCode resolveFix
  rw [searchFold_eq_fix]
  have htrim : trimFallback fs = trimSpec fs := by
    funext f
    exact trimFallback_eq_trimSpec fs f
  rw [htrim]

/-- Counterexample for C5: with directories `d1:d2` and only `/t/d1/a.txt`
on disk, the claimed per-directory (a)-(f) chain resolves the name
`a.txt 1` in the first directory (via the trim transform), but the code
applies the trim transforms only after the loop, to the last directory's
candidate, and classifies the attachment missing. -/
theorem c5_counterexample :
    handle_attachment fs5 [] (fun _ => none) line5 (chars "/t")
        (chars "d1:d2") ⟨0, 0, 0, [], [], []⟩ =
      .ok (⟨1, 0, 1, [], [(chars "a.txt 1", 1)], [chars "a.txt 1"]⟩, none) ∧
    claimedResolve fs5 [] (chars "/t") (chars "d1:d2") (chars "a.txt 1") =
      (some (chars "/t/d1/a.txt"), chars "a.txt") ∧
    fs5 (chars "/t/d1/a.txt") = true := by
  refine ⟨by decide, by decide, by decide⟩

end Eudora
